import Mathlib

/-!
Verification of the BCPNN synapse parameter-compilation pipeline
(`pynn_spinnaker_bcpnn/bcpnn.py`).

The pipeline derives "native" learning-rule parameters from user-facing
ones via closed-form formulas (`BCPNNSynapse.translations`), encodes them
into signed fixed-point words, and synthesises lookup tables for the
natural logarithm and for exponential decay
(`s1813_ln_lut`, `s69_exp_decay_lut`, `BCPNNSynapse.plasticity_param_map`).

Modelling conventions:
* Python floating-point values are modelled as exact rationals `ℚ`
  (transcendental sample points as reals `ℝ`); rational division by zero
  follows Lean's `x / 0 = 0` convention.
* The external fixed-point converter `LazyArrayFloatToFixConverter`
  (from `pynn_spinnaker`, not part of this repository) is modelled from
  the spec: round-to-nearest with ties away from zero, then saturation
  to the signed range of the word.
* The external LUT generator `lazy_param_map.exp_decay_lut` is likewise
  modelled from the spec.
-/

namespace BCPNN

/-- Modelled from the spec: round-to-nearest, ties away from zero
(the rounding step of the external fixed-point codec). -/
def roundAway {α : Type} [LinearOrderedField α] [FloorRing α] (x : α) : ℤ :=
  if 0 ≤ x then ⌊x + 1 / 2⌋ else -⌊-x + 1 / 2⌋

/-- Modelled from the spec: saturation of an integer to the representable
range of a signed word of `bits` bits. -/
def satClamp (bits : ℕ) (n : ℤ) : ℤ :=
  max (-(2 ^ (bits - 1))) (min (2 ^ (bits - 1) - 1) n)

/-- Modelled from the spec: the fixed-point codec
`encode(value, format) = saturate(round(value * 2^frac))` for a signed
format of `bits` total bits with `frac` fractional bits. -/
def floatToFix {α : Type} [LinearOrderedField α] [FloorRing α]
    (bits frac : ℕ) (x : α) : ℤ :=
  satClamp bits (roundAway (x * 2 ^ frac))

/-- Decoding of a fixed-point word with `frac` fractional bits back to a
rational: `value_real = value_int / 2^frac`. -/
def decodeFix (frac : ℕ) (n : ℤ) : ℚ := (n : ℚ) / 2 ^ frac

/-- `float_to_s1813_no_copy = LazyArrayFloatToFixConverter(True, 32, 13, False)`:
signed 32-bit words with 13 fractional bits, applied to one scalar. -/
def float_to_s1813_no_copy (x : ℚ) : ℤ := floatToFix 32 13 x

/-- `float_to_s69_no_copy = LazyArrayFloatToFixConverter(True, 16, 9, False)`:
signed 16-bit words with 9 fractional bits, applied to one scalar. -/
def float_to_s69_no_copy (x : ℚ) : ℤ := floatToFix 16 9 x

/-- Real-valued variant of the S18.13 encoder, used on transcendental
LUT sample values. -/
noncomputable def s1813_encode_real (x : ℝ) : ℤ := floatToFix 32 13 x

/-- Real-valued variant of the S6.9 encoder, used on transcendental
LUT sample values. -/
noncomputable def s69_encode_real (x : ℝ) : ℤ := floatToFix 16 9 x

/-- The user-facing parameters of `BCPNNSynapse` (`default_parameters`
keys): floats as exact rationals, the two placeholders and `delay`
(Python `None`) as `Option`. -/
structure UserParams where
  weight : ℚ
  delay : Option ℚ
  tau_zi : ℚ
  tau_zj : ℚ
  tau_p : ℚ
  f_max : ℚ
  phi : ℚ
  w_max : ℚ
  weights_enabled : Bool
  plasticity_enabled : Bool
  bias_enabled : Bool
  placeholder1 : Option ℚ
  placeholder2 : Option ℚ
deriving DecidableEq

/-- The native parameters produced by `BCPNNSynapse.translations`. -/
structure NativeParams where
  weight : ℚ
  delay : Option ℚ
  tau_zi : ℚ
  tau_zj : ℚ
  tau_p : ℚ
  a_i : ℚ
  a_j : ℚ
  a_ij : ℚ
  epsilon : ℚ
  epsilon_squared : ℚ
  phi : ℚ
  w_max : ℚ
  mode : ℕ
deriving DecidableEq

/-- The forward direction of `BCPNNSynapse.translations`: each native
parameter is given by the closed-form expression string of the source
(`build_translations` forward transforms), evaluated over exact
rationals.  Python booleans act as the integers 0/1 in the `mode`
formula. -/
def derive (p : UserParams) : NativeParams where
  weight := p.weight
  delay := p.delay
  tau_zi := p.tau_zi
  tau_zj := p.tau_zj
  tau_p := p.tau_p
  a_i := 1000 / (p.f_max * (p.tau_zi - p.tau_p))
  a_j := 1000 / (p.f_max * (p.tau_zj - p.tau_p))
  a_ij := (1000000 / (p.tau_zi + p.tau_zj)) /
    ((p.f_max ^ 2) * ((1 / ((1 / p.tau_zi) + (1 / p.tau_zj))) - p.tau_p))
  epsilon := 1000 / (p.f_max * p.tau_p)
  epsilon_squared := (1000 / (p.f_max * p.tau_p)) ^ 2
  phi := p.phi
  w_max := p.w_max
  mode := p.weights_enabled.toNat + p.plasticity_enabled.toNat * 2 +
    p.bias_enabled.toNat * 4

/-- `BCPNNSynapse.default_parameters` of the source, as a `UserParams`
record. -/
def default_parameters : UserParams where
  weight := 0
  delay := none
  tau_zi := 5
  tau_zj := 5
  tau_p := 1000
  f_max := 20
  phi := 1 / 20
  w_max := 2
  weights_enabled := true
  plasticity_enabled := true
  bias_enabled := true
  placeholder1 := none
  placeholder2 := none

/-- Number of entries of the natural-log LUT:
`size = (1 << 13) >> input_shift` in `s1813_ln_lut`. -/
def ln_lut_num_entries (input_shift : ℕ) : ℕ := (1 <<< 13) >>> input_shift

/-- The `i`-th sample point of the natural-log LUT: the source builds
`np.arange(1.0, 2.0, 1.0 / size)`, whose `i`-th element is `1 + i / size`
(the step `1 / size` is an exact power of two, so no rounding occurs in
the source's float arithmetic). -/
def ln_lut_x (input_shift i : ℕ) : ℚ :=
  1 + (i : ℚ) / (ln_lut_num_entries input_shift : ℚ)

/-- `s1813_ln_lut(input_shift)`: take `ln` of each sample point and
encode under the S18.13 fixed-point format. -/
noncomputable def s1813_ln_lut (input_shift : ℕ) : List ℤ :=
  (List.range (ln_lut_num_entries input_shift)).map
    (fun i => s1813_encode_real (Real.log ((ln_lut_x input_shift i : ℚ) : ℝ)))

/-- Modelled from the spec: one entry of the external
`lazy_param_map.exp_decay_lut` generator (not part of this repository) —
the decay multiplier after `i` timesteps, the timestep widened by
`2^time_shift`, encoded under the S6.9 format:
`encode(exp(-(i * 2^time_shift) / tau))`. -/
noncomputable def exp_decay_entry (tau : ℝ) (time_shift i : ℕ) : ℤ :=
  s69_encode_real (Real.exp (-((i : ℝ) * 2 ^ time_shift) / tau))

/-- Modelled from the spec: the external `s69_exp_decay_lut` table of
`num_entries` decay multipliers for time constant `tau`. -/
noncomputable def s69_exp_decay_lut (tau : ℝ) (num_entries time_shift : ℕ) :
    List ℤ :=
  (List.range num_entries).map (exp_decay_entry tau time_shift)

/-- Modelled from the spec: the external `lazy_param_map.s1615` codec —
signed 32-bit words with 15 fractional bits. -/
def s1615 (x : ℚ) : ℤ := floatToFix 32 15 x

/-- Modelled from the spec: the external
`lazy_param_map.s32_weight_fixed_point` codec — a signed 32-bit word
whose fractional-bit position `weight_fp` is fixed by the schema
context. -/
def s32_weight_fixed_point (weight_fp : ℕ) (x : ℚ) : ℤ :=
  floatToFix 32 weight_fp x

/-- `BCPNNSynapse.plasticity_param_map` compiled for one parameter set:
the ordered fields of the plasticity region, each as its list of encoded
words (scalars are single words; LUT fields are whole tables).  Field
order, formats and table sizes are exactly those of the source schema. -/
noncomputable def compileDescriptor (weight_fp : ℕ) (p : UserParams) :
    List (List ℤ) :=
  let n := derive p
  [[float_to_s1813_no_copy n.a_i],
   [float_to_s1813_no_copy n.a_j],
   [float_to_s1813_no_copy n.a_ij],
   [float_to_s1813_no_copy n.epsilon],
   [float_to_s1813_no_copy n.epsilon_squared],
   [s1615 n.phi],
   [s32_weight_fixed_point weight_fp n.w_max],
   [(n.mode : ℤ)],
   s69_exp_decay_lut (n.tau_zi : ℝ) 128 0,
   s69_exp_decay_lut (n.tau_zj : ℝ) 128 0,
   s69_exp_decay_lut (n.tau_p : ℝ) 1136 3,
   s1813_ln_lut 6]

/-- `BCPNNSynapse.comparable_param_names`: the descriptor equality key —
the tuple of the nine comparable parameters. -/
def comparableKey (p : UserParams) :
    ℚ × ℚ × ℚ × ℚ × ℚ × ℚ × Bool × Bool × Bool :=
  (p.tau_zi, p.tau_zj, p.tau_p, p.f_max, p.phi, p.w_max,
   p.weights_enabled, p.plasticity_enabled, p.bias_enabled)

/-- C1: for every parameter set, the derivation engine computes the native
parameters by exactly the closed-form formulas of the claim —
`a_i = 1000/(f_max*(tau_zi - tau_p))`, `a_j = 1000/(f_max*(tau_zj - tau_p))`,
`a_ij = (1e6/(tau_zi+tau_zj)) / (f_max^2*(1/(1/tau_zi+1/tau_zj) - tau_p))`,
`epsilon = 1000/(f_max*tau_p)`, `epsilon_squared = epsilon^2`, and
`mode = weights_enabled + 2*plasticity_enabled + 4*bias_enabled` —
as pure arithmetic over the (exact-rational model of the) floating-point
inputs, before any fixed-point conversion. -/
theorem derive_computes_claim_formulas (p : UserParams) :
    (derive p).a_i = 1000 / (p.f_max * (p.tau_zi - p.tau_p)) ∧
    (derive p).a_j = 1000 / (p.f_max * (p.tau_zj - p.tau_p)) ∧
    (derive p).a_ij = (1000000 / (p.tau_zi + p.tau_zj)) /
      ((p.f_max ^ 2) * ((1 / ((1 / p.tau_zi) + (1 / p.tau_zj))) - p.tau_p)) ∧
    (derive p).epsilon = 1000 / (p.f_max * p.tau_p) ∧
    (derive p).epsilon_squared = ((derive p).epsilon) ^ 2 ∧
    (derive p).mode = p.weights_enabled.toNat + 2 * p.plasticity_enabled.toNat +
      4 * p.bias_enabled.toNat := by
  refine ⟨rfl, rfl, rfl, rfl, rfl, ?_⟩
  simp only [derive]
  omega

/-- C7: on the source's default parameters (`tau_zi=5, tau_zj=5,
tau_p=1000, f_max=20, phi=0.05, w_max=2`, all three enable flags true)
derivation yields `mode = 7` and `epsilon = 0.05`, and encoding `0.05`
under the signed Q18.13 format (32 total bits, 13 fractional,
round-to-nearest ties away from zero) yields the integer 410. -/
theorem default_parameters_end_to_end :
    (derive default_parameters).mode = 7 ∧
    (derive default_parameters).epsilon = 1 / 20 ∧
    float_to_s1813_no_copy (1 / 20) = 410 := by
  refine ⟨rfl, by norm_num [derive, default_parameters], ?_⟩
  norm_num [float_to_s1813_no_copy, floatToFix, roundAway, satClamp]

/-- C3: the descriptor equality key is sound — if two parameter sets agree
on the nine comparable parameters (`comparable_param_names`), compiling
them against the same schema (here: the same weight fixed-point position)
yields identical descriptors; parameters outside that subset (`weight`,
`delay`, the placeholders) never affect the compiled words. -/
theorem comparableKey_sound (weight_fp : ℕ) (p q : UserParams)
    (h : comparableKey p = comparableKey q) :
    compileDescriptor weight_fp p = compileDescriptor weight_fp q := by
  obtain ⟨w, d, tzi, tzj, tp, fm, ph, wm, we, pe, be, p1, p2⟩ := p
  obtain ⟨w', d', tzi', tzj', tp', fm', ph', wm', we', pe', be', p1', p2'⟩ := q
  simp only [comparableKey, Prod.mk.injEq] at h
  obtain ⟨h1, h2, h3, h4, h5, h6, h7, h8, h9⟩ := h
  subst h1 h2 h3 h4 h5 h6 h7 h8 h9
  rfl

/-- Witness for C3: two parameter sets differing in `weight`, `delay` and
a placeholder but sharing the comparable parameters compile identically. -/
theorem comparableKey_sound_witness :
    compileDescriptor 16 default_parameters =
      compileDescriptor 16
        { default_parameters with
          weight := 7, delay := some 1, placeholder1 := some 3 } :=
  comparableKey_sound 16 default_parameters
    { default_parameters with
      weight := 7, delay := some 1, placeholder1 := some 3 } rfl

/-- Rounding with ties away from zero reduces to the floor form on
nonnegative arguments. -/
lemma roundAway_of_nonneg {x : ℝ} (h : 0 ≤ x) :
    roundAway x = ⌊x + 1 / 2⌋ := if_pos h

/-- Round-to-nearest never moves a nonnegative value below zero. -/
lemma roundAway_nonneg {x : ℝ} (h : 0 ≤ x) : 0 ≤ roundAway x := by
  rw [roundAway_of_nonneg h]
  exact Int.floor_nonneg.mpr (by linarith)

/-- Round-to-nearest introduces an error of at most half an integer
step on nonnegative arguments. -/
lemma abs_roundAway_sub {x : ℝ} (h : 0 ≤ x) :
    |((roundAway x : ℤ) : ℝ) - x| ≤ 1 / 2 := by
  rw [roundAway_of_nonneg h, abs_le]
  have h1 := Int.floor_le (x + 1 / 2)
  have h2 := Int.lt_floor_add_one (x + 1 / 2)
  constructor <;> [linarith; linarith]

/-- Round-to-nearest is monotone on nonnegative arguments. -/
lemma roundAway_mono_nonneg {x y : ℝ} (hx : 0 ≤ x) (hxy : x ≤ y) :
    roundAway x ≤ roundAway y := by
  rw [roundAway_of_nonneg hx, roundAway_of_nonneg (hx.trans hxy)]
  exact Int.floor_mono (by linarith)

/-- Saturation is the identity on values inside the representable
range. -/
lemma satClamp_of_bounds {bits : ℕ} {n : ℤ} (h1 : -(2 ^ (bits - 1)) ≤ n)
    (h2 : n ≤ 2 ^ (bits - 1) - 1) : satClamp bits n = n := by
  unfold satClamp
  rw [min_eq_right h2, max_eq_right h1]

/-- Saturation is monotone. -/
lemma satClamp_mono {bits : ℕ} {n m : ℤ} (h : n ≤ m) :
    satClamp bits n ≤ satClamp bits m :=
  max_le_max le_rfl (min_le_min le_rfl h)

/-- Saturation preserves nonnegativity. -/
lemma satClamp_nonneg {bits : ℕ} {n : ℤ} (h : 0 ≤ n) :
    0 ≤ satClamp bits n := by
  have hp : (0 : ℤ) < 2 ^ (bits - 1) := pow_pos (by norm_num) _
  exact le_trans (le_min (by omega) h) (le_max_right _ _)

/-- Saturation respects an upper bound that is itself above the lower
saturation rail. -/
lemma satClamp_le_of_le {bits : ℕ} {n c : ℤ} (hc : -(2 ^ (bits - 1)) ≤ c)
    (h : n ≤ c) : satClamp bits n ≤ c :=
  max_le hc (le_trans (min_le_right _ _) h)

/-- Indexing a table built by mapping over `List.range`. -/
lemma map_range_getD {β : Type} (f : ℕ → β) (n i : ℕ) (d : β) (h : i < n) :
    ((List.range n).map f).getD i d = f i := by
  rw [List.getD_eq_getElem?_getD, List.getElem?_map, List.getElem?_range h]
  rfl

/-- C4: for every `input_shift` and every `i < num_entries` (with
`num_entries = (1 << 13) >> input_shift`), the `i`-th entry of the
natural-log LUT, decoded from S18.13, approximates
`ln(1 + i/num_entries)` within the quantization error
`2^-(13+1)` of the output format. -/
theorem ln_lut_entry_approx (s i : ℕ) (hi : i < ln_lut_num_entries s) :
    |(((s1813_ln_lut s).getD i 0 : ℤ) : ℝ) / 2 ^ 13 -
      Real.log (1 + (i : ℝ) / (ln_lut_num_entries s : ℝ))| ≤ 1 / 2 ^ 14 := by
  have hNQ : (0 : ℝ) < (ln_lut_num_entries s : ℝ) := by
    exact_mod_cast Nat.pos_of_ne_zero (by omega)
  have hx : ((ln_lut_x s i : ℚ) : ℝ) =
      1 + (i : ℝ) / (ln_lut_num_entries s : ℝ) := by
    unfold ln_lut_x
    push_cast
    ring
  have hentry : (s1813_ln_lut s).getD i 0 =
      s1813_encode_real (Real.log ((ln_lut_x s i : ℚ) : ℝ)) := by
    unfold s1813_ln_lut
    exact map_range_getD _ _ _ _ hi
  rw [hentry, hx]
  set y : ℝ := Real.log (1 + (i : ℝ) / (ln_lut_num_entries s : ℝ)) with hy
  have hfrac0 : (0 : ℝ) ≤ (i : ℝ) / (ln_lut_num_entries s : ℝ) :=
    div_nonneg (Nat.cast_nonneg i) hNQ.le
  have hy0 : 0 ≤ y := Real.log_nonneg (by linarith)
  have hy1 : y < 1 := by
    have hd : (i : ℝ) / (ln_lut_num_entries s : ℝ) < 1 :=
      (div_lt_one hNQ).mpr (by exact_mod_cast hi)
    have he : (2 : ℝ) < Real.exp 1 := lt_trans (by norm_num) Real.exp_one_gt_d9
    have hpos : (0 : ℝ) < 1 + (i : ℝ) / (ln_lut_num_entries s : ℝ) := by linarith
    rw [hy]
    exact (Real.log_lt_iff_lt_exp hpos).mpr (by linarith)
  set r : ℤ := roundAway (y * 2 ^ 13) with hr
  have harg : (0 : ℝ) ≤ y * 2 ^ 13 := by positivity
  have hround := abs_roundAway_sub harg
  rw [abs_le] at hround
  have e1 : ((2 : ℝ) ^ 13) = 8192 := by norm_num
  rw [← hr, e1] at hround
  have hr0 : 0 ≤ r := roundAway_nonneg harg
  have hrle : r ≤ 8192 := by
    have hlt : (r : ℝ) < 8193 := by nlinarith [hround.2]
    have hlt2 : r < 8193 := by exact_mod_cast hlt
    omega
  have hsat : s1813_encode_real y = r := by
    show satClamp 32 (roundAway (y * 2 ^ 13)) = r
    rw [← hr]
    refine satClamp_of_bounds ?_ ?_
    · linarith [hr0, show (-(2 ^ (32 - 1)) : ℤ) ≤ 0 by norm_num]
    · linarith [hrle, show (8192 : ℤ) ≤ 2 ^ (32 - 1) - 1 by norm_num]
  rw [hsat]
  have e2 : ((2 : ℝ) ^ 14) = 16384 := by norm_num
  rw [e1, e2, abs_le]
  constructor
  · linarith [hround.1]
  · linarith [hround.2]

/-- Witness for C4: the accuracy bound instantiated at `input_shift = 6`,
`i = 1`. -/
theorem ln_lut_entry_approx_witness :
    |(((s1813_ln_lut 6).getD 1 0 : ℤ) : ℝ) / 2 ^ 13 -
      Real.log (1 + ((1 : ℕ) : ℝ) / (ln_lut_num_entries 6 : ℝ))| ≤ 1 / 2 ^ 14 :=
  ln_lut_entry_approx 6 1 (by decide)

/-- Counterexample to C5: `x = 1.0` is NOT excluded from the sampling
grid — for `input_shift = 6` the grid is nonempty (128 points) and its
first sample point is exactly `1.0`. -/
theorem ln_lut_grid_contains_one :
    0 < ln_lut_num_entries 6 ∧ ln_lut_x 6 0 = 1 := by
  constructor
  · decide
  · norm_num [ln_lut_x]

/-- C5 as amended: the natural-log LUT samples `ln(x)` at
`num_entries = (1 << 13) >> input_shift` points uniformly spaced over
the half-open interval `[1.0, 2.0)` — `x = 1.0` is included (it is the
first point) and `x = 2.0` is excluded: point `i` is
`1 + i/num_entries`, successive points differ by `1/num_entries`, and
every point is `< 2`. -/
theorem ln_lut_grid_uniform_left_closed (s i : ℕ)
    (hi : i < ln_lut_num_entries s) :
    ln_lut_x s i = 1 + (i : ℚ) / (ln_lut_num_entries s : ℚ) ∧
    ln_lut_x s 0 = 1 ∧
    ln_lut_x s (i + 1) - ln_lut_x s i = 1 / (ln_lut_num_entries s : ℚ) ∧
    1 ≤ ln_lut_x s i ∧ ln_lut_x s i < 2 := by
  have hN : 0 < ln_lut_num_entries s := Nat.pos_of_ne_zero (by omega)
  have hNQ : (0 : ℚ) < (ln_lut_num_entries s : ℚ) := by exact_mod_cast hN
  refine ⟨rfl, by norm_num [ln_lut_x], ?_, ?_, ?_⟩
  · unfold ln_lut_x
    push_cast
    field_simp
  · unfold ln_lut_x
    have : (0 : ℚ) ≤ (i : ℚ) / (ln_lut_num_entries s : ℚ) :=
      div_nonneg (by positivity) hNQ.le
    linarith
  · unfold ln_lut_x
    have hlt : (i : ℚ) / (ln_lut_num_entries s : ℚ) < 1 :=
      (div_lt_one hNQ).mpr (by exact_mod_cast hi)
    linarith

/-- Witness for C5 (amended): the grid characterisation at
`input_shift = 6`, `i = 5`. -/
theorem ln_lut_grid_uniform_left_closed_witness :
    ln_lut_x 6 5 = 1 + (5 : ℚ) / (ln_lut_num_entries 6 : ℚ) ∧
    ln_lut_x 6 0 = 1 ∧
    ln_lut_x 6 6 - ln_lut_x 6 5 = 1 / (ln_lut_num_entries 6 : ℚ) ∧
    1 ≤ ln_lut_x 6 5 ∧ ln_lut_x 6 5 < 2 :=
  ln_lut_grid_uniform_left_closed 6 5 (by decide)

/-- Round-to-nearest respects an integer upper bound that sits more than
half a step above the argument. -/
lemma roundAway_le_of_lt {x : ℝ} {c : ℤ} (hx : 0 ≤ x)
    (h : x < (c : ℝ) + 1 / 2) : roundAway x ≤ c := by
  rw [roundAway_of_nonneg hx]
  have h1 : ((⌊x + 1 / 2⌋ : ℤ) : ℝ) ≤ x + 1 / 2 := Int.floor_le _
  have h2 : ((⌊x + 1 / 2⌋ : ℤ) : ℝ) < (c : ℝ) + 1 := by linarith
  have h3 : ⌊x + 1 / 2⌋ < c + 1 := by exact_mod_cast h2
  omega

/-- A numeric bound on the exponential: `exp 7 > 1024`. -/
lemma exp_seven_gt : (1024 : ℝ) < Real.exp 7 := by
  have h1 : (2.7 : ℝ) < Real.exp 1 := lt_trans (by norm_num) Real.exp_one_gt_d9
  have h2 : ((2.7 : ℝ)) ^ (7 : ℕ) < (Real.exp 1) ^ (7 : ℕ) :=
    pow_lt_pow_left₀ h1 (by norm_num) (by norm_num)
  have h3 : (Real.exp 1) ^ (7 : ℕ) = Real.exp 7 := by
    rw [← Real.exp_nat_mul]
    norm_num
  have h4 : (1024 : ℝ) < ((2.7 : ℝ)) ^ (7 : ℕ) := by norm_num
  linarith

/-- Counterexample to C6: decoded exponential-decay entries do NOT all lie
strictly within `(0, 1]` — in the schema's own `tau_zi` table
(`tau = 5`, 128 entries, `time_shift = 0`) entry 35 encodes
`exp(-7) ≈ 0.0009`, which rounds to the fixed-point word 0, so its
decoded value is 0, outside `(0, 1]`. -/
theorem exp_decay_entry_underflows_to_zero :
    (s69_exp_decay_lut 5 128 0).getD 35 0 = 0 ∧
    ¬ (0 < decodeFix 9 ((s69_exp_decay_lut 5 128 0).getD 35 0)) := by
  have hget : (s69_exp_decay_lut 5 128 0).getD 35 0 = exp_decay_entry 5 0 35 := by
    unfold s69_exp_decay_lut
    exact map_range_getD _ _ _ _ (by norm_num)
  have harg : -((35 : ℕ) : ℝ) * 2 ^ (0 : ℕ) / 5 = -7 := by norm_num
  have hexp_pos : (0 : ℝ) < Real.exp (-7) := Real.exp_pos _
  have hexp_small : Real.exp (-7) < 1 / 1024 := by
    rw [Real.exp_neg]
    rw [inv_lt_comm₀ (Real.exp_pos 7) (by norm_num : (0 : ℝ) < 1 / 1024)]
    calc (1 / 1024 : ℝ)⁻¹ = 1024 := by norm_num
    _ < Real.exp 7 := exp_seven_gt
  have hzero : exp_decay_entry 5 0 35 = 0 := by
    unfold exp_decay_entry s69_encode_real floatToFix
    have hx : -(((35 : ℕ) : ℝ) * 2 ^ (0 : ℕ)) / 5 = -7 := by norm_num
    rw [hx]
    have hround0 : roundAway (Real.exp (-7) * 2 ^ 9) = 0 := by
      rw [roundAway_of_nonneg (by positivity)]
      rw [Int.floor_eq_zero_iff]
      constructor
      · have : (0 : ℝ) ≤ Real.exp (-7) * 2 ^ 9 := by positivity
        linarith
      · have h9 : ((2 : ℝ) ^ 9) = 512 := by norm_num
        nlinarith [hexp_small]
    rw [hround0]
    norm_num [satClamp]
  refine ⟨hget.trans hzero, ?_⟩
  rw [hget, hzero]
  norm_num [decodeFix]

/-- C6 as amended: for every `tau > 0` the exponential-decay table is
monotonically non-increasing entry by entry, and every decoded entry lies
in the closed interval `[0, 1]` (entries can underflow to exactly 0, so
the interval is closed at 0, not open as the original claim states). -/
theorem exp_decay_lut_monotone_and_bounded (tau : ℝ) (htau : 0 < tau)
    (n ts i j : ℕ) (hi : i < n) (hj : j < n) (hij : i ≤ j) :
    (s69_exp_decay_lut tau n ts).getD j 0 ≤
      (s69_exp_decay_lut tau n ts).getD i 0 ∧
    (0 : ℚ) ≤ decodeFix 9 ((s69_exp_decay_lut tau n ts).getD i 0) ∧
    decodeFix 9 ((s69_exp_decay_lut tau n ts).getD i 0) ≤ 1 := by
  have hgi : (s69_exp_decay_lut tau n ts).getD i 0 = exp_decay_entry tau ts i := by
    unfold s69_exp_decay_lut
    exact map_range_getD _ _ _ _ hi
  have hgj : (s69_exp_decay_lut tau n ts).getD j 0 = exp_decay_entry tau ts j := by
    unfold s69_exp_decay_lut
    exact map_range_getD _ _ _ _ hj
  have hexp_pos : ∀ k : ℕ, (0 : ℝ) < Real.exp (-((k : ℝ) * 2 ^ ts) / tau) :=
    fun k => Real.exp_pos _
  have hexp_le_one : ∀ k : ℕ, Real.exp (-((k : ℝ) * 2 ^ ts) / tau) ≤ 1 := by
    intro k
    apply Real.exp_le_one_iff.mpr
    rw [neg_div]
    apply neg_nonpos_of_nonneg
    positivity
  have hle512 : ∀ k : ℕ, exp_decay_entry tau ts k ≤ 512 := by
    intro k
    unfold exp_decay_entry s69_encode_real floatToFix
    apply satClamp_le_of_le (by norm_num)
    apply roundAway_le_of_lt (by positivity)
    have h9 : ((2 : ℝ) ^ 9) = 512 := by norm_num
    push_cast
    nlinarith [hexp_le_one k]
  have hnn : ∀ k : ℕ, 0 ≤ exp_decay_entry tau ts k := by
    intro k
    unfold exp_decay_entry s69_encode_real floatToFix
    exact satClamp_nonneg (roundAway_nonneg (by positivity))
  refine ⟨?_, ?_, ?_⟩
  · rw [hgi, hgj]
    unfold exp_decay_entry s69_encode_real floatToFix
    apply satClamp_mono
    apply roundAway_mono_nonneg (by positivity)
    have hmono : Real.exp (-((j : ℝ) * 2 ^ ts) / tau) ≤
        Real.exp (-((i : ℝ) * 2 ^ ts) / tau) := by
      apply Real.exp_le_exp.mpr
      have hc : ((i : ℝ) * 2 ^ ts) ≤ ((j : ℝ) * 2 ^ ts) := by
        have hcij : (i : ℝ) ≤ (j : ℝ) := Nat.cast_le.mpr hij
        nlinarith [pow_pos (show (0 : ℝ) < 2 by norm_num) ts]
      rw [neg_div, neg_div]
      exact neg_le_neg ((div_le_div_iff_of_pos_right htau).mpr hc)
    nlinarith [hmono, hexp_pos j]
  · rw [hgi]
    unfold decodeFix
    apply div_nonneg _ (by positivity)
    exact_mod_cast hnn i
  · rw [hgi]
    unfold decodeFix
    rw [div_le_one (by positivity)]
    have h512 : ((512 : ℤ) : ℚ) ≤ 2 ^ 9 := by norm_num
    have hcast : ((exp_decay_entry tau ts i : ℤ) : ℚ) ≤ ((512 : ℤ) : ℚ) := by
      exact_mod_cast hle512 i
    linarith

/-- Witness for C6 (amended): the monotonicity and range bound
instantiated in the schema's `tau_zi` table (`tau = 5`, 128 entries,
`time_shift = 0`) at entries 1 and 2. -/
theorem exp_decay_lut_monotone_and_bounded_witness :
    (s69_exp_decay_lut 5 128 0).getD 2 0 ≤
      (s69_exp_decay_lut 5 128 0).getD 1 0 ∧
    (0 : ℚ) ≤ decodeFix 9 ((s69_exp_decay_lut 5 128 0).getD 1 0) ∧
    decodeFix 9 ((s69_exp_decay_lut 5 128 0).getD 1 0) ≤ 1 :=
  exp_decay_lut_monotone_and_bounded 5 (by norm_num) 128 0 1 2
    (by norm_num) (by norm_num) (by norm_num)

/-- Modelled from the spec: the error kind a derivation formula is
required to surface when it hits an undefined operation. -/
inductive DomainError where
  | divisionByZero
deriving DecidableEq

/-- Modelled from the spec: a checked derivation that surfaces a
`DomainError` whenever `tau_zi = tau_p`, `tau_zj = tau_p` or
`tau_zi + tau_zj = 0` (a division-by-zero condition), and otherwise
derives the native parameters.  The source has no such checked path; this
definition exists to compare the spec's demand with the source's
`derive`. -/
def deriveChecked (p : UserParams) : Except DomainError NativeParams :=
  if p.tau_zi = p.tau_p ∨ p.tau_zj = p.tau_p ∨ p.tau_zi + p.tau_zj = 0 then
    Except.error DomainError.divisionByZero
  else
    Except.ok (derive p)

/-- The default parameters with `tau_p` lowered to 5, so that
`tau_zi = tau_p` — the division-by-zero condition of C2. -/
def degenerate_parameters : UserParams :=
  { default_parameters with tau_p := 5 }

/-- Counterexample to C2: on `tau_zi = tau_p = 5` the spec-modelled
checked derivation demands a `DomainError`, but the source derivation is
a total function with no error path: it produces a native parameter set
(the `a_i` denominator `f_max * (tau_zi - tau_p)` is zero, and in the
exact-rational model the division yields 0), and fixed-point encoding is
then attempted on it, producing the word 0 — no error is ever raised
before encoding. -/
theorem derive_no_domain_error :
    deriveChecked degenerate_parameters =
      Except.error DomainError.divisionByZero ∧
    degenerate_parameters.f_max *
      (degenerate_parameters.tau_zi - degenerate_parameters.tau_p) = 0 ∧
    (derive degenerate_parameters).a_i = 0 ∧
    float_to_s1813_no_copy ((derive degenerate_parameters).a_i) = 0 := by
  refine ⟨?_, ?_, ?_, ?_⟩
  · rfl
  · norm_num [degenerate_parameters, default_parameters]
  · norm_num [derive, degenerate_parameters, default_parameters]
  · norm_num [derive, degenerate_parameters, default_parameters,
      float_to_s1813_no_copy, floatToFix, roundAway, satClamp]

/-- C2 as amended: the source derivation performs no domain check and
raises no `DomainError` — for every parameter set with
`tau_zi = tau_p`, the `a_i` denominator `f_max * (tau_zi - tau_p)` is
zero, derivation nonetheless returns a native parameter set (whose `a_i`
is 0 in the exact-rational model of the division-by-zero), and the
fixed-point encoder is applied to it, yielding the word 0. -/
theorem derive_unchecked_on_zero_denominator (p : UserParams)
    (h : p.tau_zi = p.tau_p) :
    p.f_max * (p.tau_zi - p.tau_p) = 0 ∧
    (derive p).a_i = 0 ∧
    float_to_s1813_no_copy ((derive p).a_i) = 0 := by
  have hz : p.tau_zi - p.tau_p = 0 := by rw [h]; ring
  have hd : p.f_max * (p.tau_zi - p.tau_p) = 0 := by rw [hz]; ring
  have ha : (derive p).a_i = 0 := by
    show 1000 / (p.f_max * (p.tau_zi - p.tau_p)) = 0
    rw [hd]
    norm_num
  refine ⟨hd, ha, ?_⟩
  rw [ha]
  norm_num [float_to_s1813_no_copy, floatToFix, roundAway, satClamp]

/-- Witness for C2 (amended): the unchecked behaviour at the concrete
degenerate input `tau_zi = tau_p = 5`. -/
theorem derive_unchecked_on_zero_denominator_witness :
    degenerate_parameters.f_max *
      (degenerate_parameters.tau_zi - degenerate_parameters.tau_p) = 0 ∧
    (derive degenerate_parameters).a_i = 0 ∧
    float_to_s1813_no_copy ((derive degenerate_parameters).a_i) = 0 :=
  derive_unchecked_on_zero_denominator degenerate_parameters rfl

/-- Modelled from the spec: the in-place behaviour of the external
no-copy converter — applied to an array it returns the encoded words and
leaves the array's storage holding the converted contents. -/
def s1813_no_copy_inplace (values : List ℚ) : List ℤ × List ℚ :=
  (values.map float_to_s1813_no_copy,
   values.map (fun x => ((float_to_s1813_no_copy x : ℤ) : ℚ)))

/-- `s1813(values)` of the source:
`float_to_s1813_no_copy(deepcopy(values))` — with array storage passed
explicitly, the call converts a deep copy and returns the encoded words
together with the caller's array as it stands after the call. -/
def s1813 (values : List ℚ) : List ℤ × List ℚ :=
  let copy := values
  ((s1813_no_copy_inplace copy).1, values)

/-- C8: the `s1813` conversion wrapper is side-effect free — for every
input array, the caller's array after the call is unchanged (the
converter ran on a deep copy), and the result is exactly the pointwise
fixed-point encoding of the input, so it depends only on the explicit
input. -/
theorem s1813_pure (values : List ℚ) :
    (s1813 values).2 = values ∧
    (s1813 values).1 = values.map float_to_s1813_no_copy :=
  ⟨rfl, rfl⟩

/-- `BCPNNSynapse.update_weight_range(self, weight_range)` of the source:
the body is the single statement `pass` — with state passed explicitly,
the call returns the synapse's parameter space, the weight range and the
Python `None` result. -/
def update_weight_range (parameter_space : UserParams)
    (weight_range : ℚ × ℚ) : UserParams × (ℚ × ℚ) × Option ℚ :=
  (parameter_space, weight_range, none)

/-- C9: `update_weight_range` performs no computation — every call leaves
the parameter space and the weight range exactly as supplied and returns
`None`; in particular its effect on the weight range is independent of
the synapse's parameters (`w_max`, `epsilon`), so the commented-out
formula `w_max * ln(1/epsilon^2)` is never evaluated. -/
theorem update_weight_range_noop (ps : UserParams) (wr : ℚ × ℚ) :
    update_weight_range ps wr = (ps, wr, none) ∧
    (∀ qs : UserParams,
      (update_weight_range ps wr).2 = (update_weight_range qs wr).2) :=
  ⟨rfl, fun _ => rfl⟩

/-- The simulator's `min_delay` global: either the string literal
compared against in the source, or a numeric delay. -/
inductive MinDelaySetting where
  | auto
  | val (d : ℚ)
deriving DecidableEq

/-- The simulator state read by `_get_minimum_delay`: the `min_delay`
setting and the timestep `dt`. -/
structure SimState where
  min_delay : MinDelaySetting
  dt : ℚ

/-- `BCPNNSynapse._get_minimum_delay` of the source: read
`state.min_delay`; if it equals the auto marker, return `state.dt`,
otherwise return the stored value unchanged. -/
def get_minimum_delay (st : SimState) : ℚ :=
  match st.min_delay with
  | MinDelaySetting.auto => st.dt
  | MinDelaySetting.val d => d

/-- C10: for every simulator state, `_get_minimum_delay` returns
`state.dt` when `state.min_delay` is the auto marker, and returns
`state.min_delay` unchanged otherwise. -/
theorem get_minimum_delay_spec (st : SimState) :
    (st.min_delay = MinDelaySetting.auto → get_minimum_delay st = st.dt) ∧
    (∀ d : ℚ, st.min_delay = MinDelaySetting.val d →
      get_minimum_delay st = d) := by
  refine ⟨fun h => ?_, fun d h => ?_⟩ <;> simp [get_minimum_delay, h]

/-- Witness for C10: both branches at concrete simulator states. -/
theorem get_minimum_delay_spec_witness :
    get_minimum_delay ⟨MinDelaySetting.auto, 1⟩ = 1 ∧
    get_minimum_delay ⟨MinDelaySetting.val 2, 1⟩ = 2 :=
  ⟨(get_minimum_delay_spec ⟨MinDelaySetting.auto, 1⟩).1 rfl,
   (get_minimum_delay_spec ⟨MinDelaySetting.val 2, 1⟩).2 2 rfl⟩

end BCPNN
